import Mathlib

/-!
Verification development for the group-call coordinator of this repository
(src/src/webrtc/groupCall.ts).  JavaScript Maps are embedded as association
lists where insertion keeps the original position of an existing key, numbers
as Int (timestamps) or Rat (volume levels), and records read from room state
as sum-typed fields so that the structural type checks of the source can be
expressed.  All definitions are translated from the source; the only
exceptions are explicitly marked as modelled from the spec.
-/

set_option synthInstance.maxSize 512

namespace GroupCallSpec

/-! ## Association-list embedding of JavaScript Map -/

/-- Lookup in an association list, mirroring Map.get. -/
def getA {α β : Type} [DecidableEq α] : List (α × β) → α → Option β
  | [], _ => none
  | (k', v') :: rest, k => if k' = k then some v' else getA rest k

/-- Insertion mirroring Map.set: replaces the value in place when the key is
present, appends otherwise. -/
def setA {α β : Type} [DecidableEq α] : List (α × β) → α → β → List (α × β)
  | [], k, v => [(k, v)]
  | (k', v') :: rest, k, v =>
    if k' = k then (k, v) :: rest else (k', v') :: setA rest k v

/-- Deletion mirroring Map.delete (keys of a Map are unique, so removing the
first occurrence is removal of the entry). -/
def eraseA {α β : Type} [DecidableEq α] : List (α × β) → α → List (α × β)
  | [], _ => []
  | (k', v') :: rest, k => if k' = k then rest else (k', v') :: eraseA rest k

/-- Two-level lookup for Maps of Maps keyed by user id and device id. -/
def getA2 {β : Type} (m : List (String × List (String × β))) (u d : String) :
    Option β :=
  getA ((getA m u).getD []) d

/-- Two-level insertion for Maps of Maps, as done by the source when it
creates the inner Map on demand and then sets the device key. -/
def setA2 {β : Type} (m : List (String × List (String × β))) (u d : String)
    (v : β) : List (String × List (String × β)) :=
  setA m u (setA ((getA m u).getD []) d v)

/-! ## Directionality rule (wantsOutgoingCall, groupCall.ts lines 740-749) -/

/-- Translation of wantsOutgoingCall: the remote participant expects us to
call them.  String comparison is the lexicographic order on strings. -/
def wantsOutgoingCall (localUserId localDeviceId userId deviceId : String) :
    Bool :=
  decide (userId ≥ localUserId)
    && (!(userId == localUserId) || decide (deviceId > localDeviceId))

/-! ## Local media mute state (groupCall.ts lines 497-606) -/

/-- Mute bits of one user-media CallFeed. -/
structure CallM where
  audioMuted : Bool
  videoMuted : Bool
deriving DecidableEq

/-- The slice of GroupCall state that the mute operations read and write:
the optional local call feed, the deferred init mute bits, the local
user-media feed of every call, and the PTT transmit timer. -/
structure MediaState where
  localFeed : Option CallM
  initWithAudioMuted : Bool
  initWithVideoMuted : Bool
  callFeeds : List CallM
  transmitTimer : Bool
  isPtt : Bool
deriving DecidableEq

/-- Translation of isMicrophoneMuted (lines 505-511). -/
def isMicrophoneMuted (st : MediaState) : Bool :=
  match st.localFeed with
  | some f => f.audioMuted
  | none => true

/-- Translation of isLocalVideoMuted (lines 497-503). -/
def isLocalVideoMuted (st : MediaState) : Bool :=
  match st.localFeed with
  | some f => f.videoMuted
  | none => true

/-- Translation of setMicrophoneMuted (lines 518-574).  The result is the
returned boolean, the new state, and the list of emitted
LocalMuteStateChanged payloads.  Track enabling and metadata updates have no
effect on this state slice. -/
def setMicrophoneMuted (hasAudioDevice : Bool) (muted : Bool)
    (st : MediaState) : Bool × MediaState × List (Bool × Bool) :=
  if !muted && !hasAudioDevice then (false, st, [])
  else
    let st1 :=
      if st.isPtt then
        if !muted && isMicrophoneMuted st then { st with transmitTimer := true }
        else if muted && !(isMicrophoneMuted st) then
          { st with transmitTimer := false }
        else st
      else st
    let st2 := { st1 with
      callFeeds :=
        st1.callFeeds.map (fun c : CallM => { c with audioMuted := muted }) }
    let st3 :=
      match st2.localFeed with
      | some f => { st2 with localFeed := some { f with audioMuted := muted } }
      | none => { st2 with initWithAudioMuted := muted }
    (true, st3, [(muted, isLocalVideoMuted st3)])

/-- Translation of setLocalVideoMuted (lines 581-606). -/
def setLocalVideoMuted (hasVideoDevice : Bool) (muted : Bool)
    (st : MediaState) : Bool × MediaState × List (Bool × Bool) :=
  if !muted && !hasVideoDevice then (false, st, [])
  else
    let st1 :=
      match st.localFeed with
      | some f => { st with localFeed := some { f with videoMuted := muted } }
      | none => { st with initWithVideoMuted := muted }
    let st2 := { st1 with
      callFeeds :=
        st1.callFeeds.map (fun c : CallM => { c with videoMuted := muted }) }
    (true, st2, [(isMicrophoneMuted st2, muted)])

/-! ## Room-state data model (groupCall.ts lines 109-129, 1191-1205) -/

/-- One element of the feeds array of a device advertisement. -/
structure RawFeed where
  purpose : String
deriving DecidableEq

/-- A JSON field of a device record as the source inspects it: a string, a
number, an array (of feed records), or anything else (absent value, wrong
type). -/
inductive JField where
  | jstr (s : String)
  | jnum (n : Int)
  | jfeeds (fs : List RawFeed)
  | jother
deriving DecidableEq

/-- A raw device record from a member-state event, before validation. -/
structure RawDevice where
  device_id : JField
  session_id : JField
  expires_ts : JField
  feeds : JField
deriving DecidableEq

/-- Reads the device id of a structurally valid device. -/
def RawDevice.deviceIdStr (d : RawDevice) : String :=
  match d.device_id with
  | .jstr s => s
  | _ => ""

/-- Reads the session id of a structurally valid device. -/
def RawDevice.sessionIdStr (d : RawDevice) : String :=
  match d.session_id with
  | .jstr s => s
  | _ => ""

/-- Reads the expiry timestamp of a structurally valid device. -/
def RawDevice.expiresTs (d : RawDevice) : Int :=
  match d.expires_ts with
  | .jnum n => n
  | _ => 0

/-- Reads the feeds array of a structurally valid device. -/
def RawDevice.feedsList (d : RawDevice) : List RawFeed :=
  match d.feeds with
  | .jfeeds fs => fs
  | _ => []

/-- The validity filter shared by updateParticipants (lines 1199-1205) and
updateDevices (lines 1281-1287): device id and session id of string type,
numeric unexpired timestamp, array-valued feeds. -/
def validDevice (now : Int) (d : RawDevice) : Bool :=
  (match d.device_id with | .jstr _ => true | _ => false)
    && (match d.session_id with | .jstr _ => true | _ => false)
    && (match d.expires_ts with | .jnum n => decide (now < n) | _ => false)
    && (match d.feeds with | .jfeeds _ => true | _ => false)

/-- One entry of the m.calls array of a member-state event.  The devices
field is none when m.devices is absent or not an array. -/
structure CallEntry where
  call_id : String
  foci : Option (List String)
  devices : Option (List RawDevice)
deriving DecidableEq

/-- A member-state event: its state key (the user id it is scoped to) and
its m.calls content, none when m.calls is absent or not an array. -/
structure MemberEvent where
  stateKey : String
  mcalls : Option (List CallEntry)
deriving DecidableEq

/-- The room membership table: user id to membership string.  getMember of
the source returns the member with that user id, or null. -/
abbrev RoomMembers := List (String × String)

def getMembership (ms : RoomMembers) (u : String) : Option String := getA ms u

/-- Participant state stored in the participant view (lines 139-142). -/
structure PState where
  sessionId : String
  screensharing : Bool
deriving DecidableEq

/-- Lifecycle states of a group call (lines 131-137). -/
inductive GState where
  | uninit
  | initializingFeed
  | feedInitialized
  | entered
  | ended
deriving DecidableEq

def screensharePurpose : String := "m.screenshare"

/-! ## Participant view (updateParticipants, groupCall.ts lines 1175-1248) -/

/-- The m.devices array of the m.calls entry matching the group call id, as
read by updateParticipants (lines 1194-1196): first matching entry, empty
list when no entry matches or m.devices is not an array. -/
def eventDevices (g : String) (e : MemberEvent) : List RawDevice :=
  (((e.mcalls.getD []).find? (fun c => c.call_id == g)).bind
    CallEntry.devices).getD []

/-- The devices of one event that survive both filters of updateParticipants:
structural validation, and local-echo suppression of the local device id when
the event belongs to the local user and the call is not considered entered
(lines 1199-1210). -/
def eventValidDevices (g localUserId localDeviceId : String) (now : Int)
    (entered : Bool) (members : RoomMembers) (e : MemberEvent) :
    List RawDevice :=
  let valid := (eventDevices g e).filter (validDevice now)
  if !entered && (getMembership members e.stateKey).isSome
      && e.stateKey == localUserId then
    valid.filter (fun d => !(d.deviceIdStr == localDeviceId))
  else valid

/-- The participant state derived from one valid device record
(lines 1218-1221). -/
def pstateOf (d : RawDevice) : PState :=
  ⟨d.sessionIdStr, d.feedsList.any (fun f => f.purpose == screensharePurpose)⟩

/-- The inner device map built from the surviving devices of one event. -/
def deviceMapOf (ds : List RawDevice) : List (String × PState) :=
  ds.foldl (fun dm d => setA dm d.deviceIdStr (pstateOf d)) []

/-- Whether an event contributes a member entry: at least one surviving
device and room membership join (line 1213). -/
def admitEvent (g localUserId localDeviceId : String) (now : Int)
    (entered : Bool) (members : RoomMembers) (e : MemberEvent) : Bool :=
  decide (0 <
      (eventValidDevices g localUserId localDeviceId now entered members
        e).length)
    && (getMembership members e.stateKey == some "join")

/-- Processing of one member-state event inside the loop of
updateParticipants. -/
def stepEvent (g localUserId localDeviceId : String) (now : Int)
    (entered : Bool) (members : RoomMembers)
    (acc : List (String × List (String × PState))) (e : MemberEvent) :
    List (String × List (String × PState)) :=
  if admitEvent g localUserId localDeviceId now entered members e then
    setA acc e.stateKey
      (deviceMapOf
        (eventValidDevices g localUserId localDeviceId now entered members e))
  else acc

/-- The record-derived part of the participant view: the loop over all
member-state events (lines 1191-1225). -/
def recordView (g localUserId localDeviceId : String) (now : Int)
    (entered : Bool) (members : RoomMembers) (events : List MemberEvent) :
    List (String × List (String × PState)) :=
  events.foldl (stepEvent g localUserId localDeviceId now entered members) []

/-- Local echo for the entered case (lines 1228-1242): ensure the local
member has an entry for the local device id, inserting one carrying the
current session id and the screensharing bit of the local feeds only when it
is missing.  The source asserts that the local member exists; when it does
not, the model leaves the view unchanged. -/
def applyEcho (localUserId localDeviceId localSessionId : String)
    (localFeeds : List String) (members : RoomMembers)
    (base : List (String × List (String × PState))) :
    List (String × List (String × PState)) :=
  match getMembership members localUserId with
  | none => base
  | some _ =>
    let dm := (getA base localUserId).getD []
    if (getA dm localDeviceId).isSome then setA base localUserId dm
    else
      setA base localUserId
        (setA dm localDeviceId
          ⟨localSessionId,
            localFeeds.any (fun p => p == screensharePurpose)⟩)

/-- Translation of updateParticipants (lines 1175-1248).  localFeeds is the
list of purposes of getLocalFeeds.  The expiration timer only reschedules a
later recomputation and is not part of the computed view. -/
def updateParticipants (g localUserId localDeviceId localSessionId : String)
    (localFeeds : List String) (members : RoomMembers)
    (events : List MemberEvent) (st : GState) (eVAS : Bool) (now : Int) :
    List (String × List (String × PState)) :=
  if st = GState.ended then []
  else
    let entered := st = GState.entered || eVAS
    let base := recordView g localUserId localDeviceId now entered members
      events
    if entered then
      applyEcho localUserId localDeviceId localSessionId localFeeds members
        base
    else base

/-! ## Membership publisher (groupCall.ts lines 1256-1372) -/

def DEVICE_TIMEOUT : Int := 1000 * 60 * 60

/-- The state event written by updateDevices: state key, m.calls content and
the keepAlive flag of the request. -/
structure StateWrite where
  stateKey : String
  mcalls : List CallEntry
  keepAlive : Bool
deriving DecidableEq

/-- The m.devices array of the last m.calls entry matching the group call id
in the local member-state content, as the read loop of updateDevices
extracts it (lines 1265-1278). -/
def storedDevices (g : String) (content : Option (List CallEntry)) :
    List RawDevice :=
  ((((content.getD []).filter (fun c => c.call_id == g)).getLast?).bind
    CallEntry.devices).getD []

/-- The last m.calls entry matching the group call id, kept for the spread
that preserves its remaining fields (line 1294). -/
def storedOurCall (g : String) (content : Option (List CallEntry)) :
    Option CallEntry :=
  ((content.getD []).filter (fun c => c.call_id == g)).getLast?

/-- The m.calls entries whose call id differs from the group call id, in
order (lines 1268-1275). -/
def otherCalls (g : String) (content : Option (List CallEntry)) :
    List CallEntry :=
  (content.getD []).filter (fun c => !(c.call_id == g))

def validDevicesOf (now : Int) (devices : List RawDevice) : List RawDevice :=
  devices.filter (validDevice now)

/-- Translation of updateDevices (lines 1256-1306).  content is the current
local member-state content (none when there is no event).  The result is the
state event written, or none when the mutation returns null and the write is
skipped. -/
def updateDevices (g localUserId : String) (now : Int)
    (content : Option (List CallEntry))
    (fn : List RawDevice → Option (List RawDevice)) (keepAlive : Bool) :
    Option StateWrite :=
  match fn (validDevicesOf now (storedDevices g content)) with
  | none => none
  | some newDevices =>
    some { stateKey := localUserId,
           mcalls := otherCalls g content ++
             (if 0 < newDevices.length then
               [{ call_id := g,
                  foci := (storedOurCall g content).bind CallEntry.foci,
                  devices := some newDevices }]
             else []),
           keepAlive := keepAlive }

/-- The mutation passed by addDeviceToMemberState (lines 1308-1319): drop any
prior record for the local device id and append a fresh advertisement whose
expiry is now plus DEVICE_TIMEOUT. -/
def addDeviceFn (localDeviceId localSessionId : String) (now : Int)
    (purposes : List String) (devices : List RawDevice) :
    Option (List RawDevice) :=
  some ((devices.filter (fun d => !(d.deviceIdStr == localDeviceId))) ++
    [{ device_id := JField.jstr localDeviceId,
       session_id := JField.jstr localSessionId,
       expires_ts := JField.jnum (now + DEVICE_TIMEOUT),
       feeds := JField.jfeeds (purposes.map RawFeed.mk) }])

/-- A device record of the local user as the identity service reports it. -/
structure MyDevice where
  device_id : String
  last_seen_ts : Option Int
deriving DecidableEq

/-- The Map built by cleanMemberState from the identity-service device list
(line 1356); a later record with the same device id overwrites an earlier
one, as in the Map constructor. -/
def myDeviceMap (ds : List MyDevice) : List (String × MyDevice) :=
  ds.foldl (fun m d => setA m d.device_id d) []

/-- The keep predicate of the cleanMemberState mutation (lines 1360-1367):
the device id is known to the identity service with a last_seen_ts, and it is
not the local device while the call is not entered and was not entered via
another session. -/
def cleanKeep (dm : List (String × MyDevice)) (localDeviceId : String)
    (st : GState) (eVAS : Bool) (d : RawDevice) : Bool :=
  match getA dm d.deviceIdStr with
  | some dev =>
    dev.last_seen_ts.isSome
      && !(d.deviceIdStr == localDeviceId
        && decide (st ≠ GState.entered) && !eVAS)
  | none => false

/-- The mutation passed by cleanMemberState (lines 1359-1371): filter the
devices, and return null to skip the write when the filter removed
nothing. -/
def cleanFn (myDevices : List MyDevice) (localDeviceId : String) (st : GState)
    (eVAS : Bool) (devices : List RawDevice) : Option (List RawDevice) :=
  let newDevices :=
    devices.filter (cleanKeep (myDeviceMap myDevices) localDeviceId st eVAS)
  if newDevices.length = devices.length then none else some newDevices

/-- Translation of cleanMemberState (lines 1354-1372). -/
def cleanMemberState (g localUserId : String) (now : Int)
    (content : Option (List CallEntry)) (myDevices : List MyDevice)
    (localDeviceId : String) (st : GState) (eVAS : Bool) :
    Option StateWrite :=
  updateDevices g localUserId now content
    (cleanFn myDevices localDeviceId st eVAS) false

/-! ## Call handler table (initCall and disposeCall, lines 876-959) -/

/-- The handler table: user id to device id to the four subscribed closures,
which are opaque to this development and represented by a numeric token. -/
abbrev HandlerTable := List (String × List (String × Nat))

/-- The calls map restricted to what hangup handling inspects: user id to
device id to an opaque call token compared by identity. -/
abbrev CallsMap := List (String × List (String × Nat))

/-- The handler-table effect of initCall (lines 891-902): store the closures
under (opponentUserId, opponentDeviceId), creating the inner Map on
demand. -/
def initCallHandlers (t : HandlerTable) (u d : String) : HandlerTable :=
  setA2 t u d 0

/-- The handler-table effect of disposeCall (lines 924-938).  The closures
are looked up under the device id; the source then deletes the key
opponentMemberId, the user id, from the inner map keyed by device ids
(line 937), and drops the outer key when the inner map became empty.  The
result is none when a non-null assertion of the source would fail. -/
def disposeCallHandlers (t : HandlerTable) (u d : String) :
    Option HandlerTable :=
  match getA t u with
  | none => none
  | some dm =>
    if (getA dm d).isSome then
      let dm2 := eraseA dm u
      some (if dm2.length = 0 then eraseA t u else setA t u dm2)
    else none

/-- The map effects of onCallHangup for a call whose hangup reason is not
Replaced (lines 1025-1038): when the call still occupies its slot, dispose
it and remove the slot, dropping the outer key of calls when its inner map
became empty. -/
def hangupStep (calls : CallsMap) (t : HandlerTable) (u d : String)
    (callTok : Nat) : Option (CallsMap × HandlerTable) :=
  match getA calls u with
  | none => some (calls, t)
  | some dm =>
    if getA dm d = some callTok then
      match disposeCallHandlers t u d with
      | none => none
      | some t2 =>
        let dm2 := eraseA dm d
        some
          ((if dm2.length = 0 then eraseA calls u else setA calls u dm2), t2)
    else some (calls, t)

/-! ## Active speaker loop (onActiveSpeakerLoop, lines 1105-1127) -/

/-- A user-media feed as the active-speaker loop sees it: an identity (the
source compares feed objects by reference), whether it is the local feed,
and its volume samples. -/
structure UFeed where
  fid : Nat
  isLocalFeed : Bool
  samples : List Rat
deriving DecidableEq

/-- The reduce of line 1112, which has no initial value: the first sample is
taken as the accumulator unclamped, and on an empty array the source throws,
modelled as none. -/
def clampSum (T : Rat) : List Rat → Option Rat
  | [] => none
  | x :: xs => some (xs.foldl (fun acc v => acc + max v T) x)

/-- The per-feed average computed by the loop body (lines 1112-1115). -/
def feedAvg (T : Rat) (f : UFeed) : Option Rat :=
  (clampSum T f.samples).map (fun tot => tot / (f.samples.length : Rat))

/-- The scan over the user-media feeds (lines 1109-1121).  total is the
length of userMediaFeeds; topAvg and next accumulate the running maximum.
The comparison of line 1117 treats a topAvg of zero as unset because the
source tests its truthiness. -/
def scanFeeds (T : Rat) (total : Nat) :
    List UFeed → Option Rat → Option Nat → Option (Option Rat × Option Nat)
  | [], topAvg, next => some (topAvg, next)
  | f :: rest, topAvg, next =>
    if f.isLocalFeed && decide (1 < total) then scanFeeds T total rest topAvg
      next
    else
      match feedAvg T f with
      | none => none
      | some avg =>
        let takes : Bool :=
          match topAvg with
          | none => true
          | some t => t == 0 || decide (t < avg)
        if takes then scanFeeds T total rest (some avg) (some f.fid)
        else scanFeeds T total rest topAvg next

/-- Translation of onActiveSpeakerLoop (lines 1105-1127).  The result is
none when the tick throws (empty sample array), otherwise the new active
speaker and whether ActiveSpeakerChanged was emitted.  The publication guard
of line 1123 also tests the truthiness of topAvg, so a zero average never
publishes. -/
def onActiveSpeakerLoop (T : Rat) (feeds : List UFeed)
    (current : Option Nat) : Option (Option Nat × Bool) :=
  match scanFeeds T feeds.length feeds none none with
  | none => none
  | some (topAvg, next) =>
    let publish : Bool :=
      match next, topAvg with
      | some n, some t => !(current == some n) && !(t == 0) && decide (T < t)
      | _, _ => false
    some (if publish then (next, true) else (current, false))

/-- Modelled from the spec: the score the specification describes, the
arithmetic mean of the speakingVolumeSamples with every sample clamped below
at SPEAKING_THRESHOLD.  SPEAKING_THRESHOLD itself lives in callFeed.ts,
which is not part of this source tree, so the threshold is a parameter. -/
def specClampedMean (T : Rat) (f : UFeed) : Rat :=
  ((f.samples.map (fun v => max v T)).sum) / (f.samples.length : Rat)

/-! ## Retry loop (onRetryCallLoop, lines 847-874; placeOutgoingCalls,
lines 754-833; onCallStateChanged, lines 1017-1022) -/

/-- The participant view as the reconciler walks it. -/
abbrev PartMap := List (String × List (String × PState))

/-- The calls map restricted to what placement inspects: each slot holds the
opponent session id of its call, itself optional. -/
abbrev SlotCalls := List (String × List (String × Option String))

/-- Per-slot retry counters. -/
abbrev Counts := List (String × List (String × Nat))

/-- The placement condition shared by onRetryCallLoop (lines 858-860) and
placeOutgoingCalls (lines 763-765): no call for the slot carries the
advertised session id, and the directionality rule says we place the
call. -/
def slotNeedsCall (localUserId localDeviceId : String) (calls : SlotCalls)
    (u d : String) (p : PState) : Bool :=
  !((getA2 calls u d).bind id == some p.sessionId)
    && wantsOutgoingCall localUserId localDeviceId u d

/-- The counter walk of onRetryCallLoop (lines 847-874): for each slot that
needs a call and whose count is below three, increment the count and flag
that a placement pass is needed. -/
def onRetryCallLoop (localUserId localDeviceId : String)
    (participants : PartMap) (calls : SlotCalls) (counts0 : Counts) :
    Counts × Bool :=
  participants.foldl
    (fun acc mp =>
      mp.2.foldl
        (fun (acc2 : Counts × Bool) dp =>
          let retries := (getA2 acc2.1 mp.1 dp.1).getD 0
          if slotNeedsCall localUserId localDeviceId calls mp.1 dp.1 dp.2
              && decide (retries < 3) then
            (setA2 acc2.1 mp.1 dp.1 (retries + 1), true)
          else acc2)
        acc)
    (counts0, false)

/-- The slots for which placeOutgoingCalls constructs a new outbound call
(lines 757-783): every slot of the participant view satisfying the placement
condition, independent of any retry counter. -/
def placeOutgoingCallSlots (localUserId localDeviceId : String)
    (participants : PartMap) (calls : SlotCalls) : List (String × String) :=
  participants.foldl
    (fun acc mp =>
      acc ++
        (mp.2.filter
          (fun dp =>
            slotNeedsCall localUserId localDeviceId calls mp.1 dp.1 dp.2)).map
          (fun dp => (mp.1, dp.1)))
    []

/-- One retry tick: run the counter walk, then run a placement pass iff some
slot flagged a retry (line 873). -/
def retryTick (localUserId localDeviceId : String) (participants : PartMap)
    (calls : SlotCalls) (counts0 : Counts) :
    Counts × List (String × String) :=
  let r := onRetryCallLoop localUserId localDeviceId participants calls counts0
  (r.1,
    if r.2 then
      placeOutgoingCallSlots localUserId localDeviceId participants calls
    else [])

/-- The counter effect of onCallStateChanged when a call reaches Connected
(lines 1017-1022): delete the slot from the retry counters and drop the
outer key when its inner map became empty. -/
def clearRetries (counts : Counts) (u d : String) : Counts :=
  match getA counts u with
  | none => counts
  | some dm =>
    let dm2 := eraseA dm d
    if dm2.length = 0 then eraseA counts u else setA counts u dm2

/-! ## Concrete inputs used by counterexamples and witnesses -/

def mediaState0 : MediaState := ⟨none, false, false, [], false, false⟩

def feedA : UFeed := ⟨0, false, [-55]⟩

def feedB : UFeed := ⟨1, false, [-72, -40]⟩

def deviceStale : RawDevice :=
  ⟨JField.jstr "D2", JField.jstr "s2", JField.jnum 5, JField.jfeeds []⟩

def contentStale : Option (List CallEntry) :=
  some [⟨"G", none, some [deviceStale]⟩]

def deviceExpired : RawDevice :=
  ⟨JField.jstr "X", JField.jstr "sx", JField.jnum (-5), JField.jfeeds []⟩

def contentExpired : Option (List CallEntry) :=
  some [⟨"G", none, some [deviceExpired]⟩]

def deviceFresh : RawDevice :=
  ⟨JField.jstr "DB", JField.jstr "s1", JField.jnum 100, JField.jfeeds []⟩

def eventB : MemberEvent := ⟨"@b:h", some [⟨"G", none, some [deviceFresh]⟩]⟩

def deviceLocalOld : RawDevice :=
  ⟨JField.jstr "DA", JField.jstr "old", JField.jnum 100, JField.jfeeds []⟩

def eventLocalOld : MemberEvent :=
  ⟨"@a:h", some [⟨"G", none, some [deviceLocalOld]⟩]⟩

def partsRetry : PartMap :=
  [("@b:h", [("DB", ⟨"s1", false⟩), ("DC", ⟨"s2", false⟩)])]

def partsSingle : PartMap := [("@b:h", [("DB", ⟨"s1", false⟩)])]

def countsRetry : Counts := [("@b:h", [("DB", 3)])]

/-! ## Helper lemmas on the Map embedding -/

theorem getA_setA_self {α β : Type} [DecidableEq α] (m : List (α × β))
    (k : α) (v : β) : getA (setA m k v) k = some v := by
  induction m with
  | nil => simp [setA, getA]
  | cons hd tl ih =>
    obtain ⟨a, b⟩ := hd
    by_cases h : a = k
    · simp [setA, h, getA]
    · simp [setA, h, getA, ih]

theorem getA_setA_ne {α β : Type} [DecidableEq α] (m : List (α × β))
    (k k' : α) (v : β) (h : k' ≠ k) : getA (setA m k v) k' = getA m k' := by
  induction m with
  | nil =>
    simp only [setA, getA]
    rw [if_neg (fun hh => h hh.symm)]
  | cons hd tl ih =>
    obtain ⟨a, b⟩ := hd
    by_cases hh : a = k
    · subst hh
      simp only [setA, if_pos rfl, getA]
      rw [if_neg (fun hh2 => h hh2.symm), if_neg (fun hh2 => h hh2.symm)]
    · simp only [setA, if_neg hh, getA]
      by_cases hh2 : a = k'
      · rw [if_pos hh2, if_pos hh2]
      · rw [if_neg hh2, if_neg hh2, ih]

theorem setA_eq_of_getA {α β : Type} [DecidableEq α] (m : List (α × β))
    (k : α) (v : β) (h : getA m k = some v) : setA m k v = m := by
  induction m with
  | nil => simp [getA] at h
  | cons hd tl ih =>
    obtain ⟨a, b⟩ := hd
    by_cases hh : a = k
    · simp [getA, hh] at h
      simp [setA, hh, ← h]
    · simp [getA, hh] at h
      simp [setA, hh, ih h]

theorem mem_setA {α β : Type} [DecidableEq α] (m : List (α × β)) (k : α)
    (v : β) (p : α × β) (h : p ∈ setA m k v) : p ∈ m ∨ p = (k, v) := by
  induction m with
  | nil => simp [setA] at h; right; exact h
  | cons hd tl ih =>
    obtain ⟨a, b⟩ := hd
    by_cases hh : a = k
    · simp only [setA, if_pos hh, List.mem_cons] at h
      rcases h with h | h
      · right; exact h
      · left; exact List.mem_cons_of_mem _ h
    · simp only [setA, if_neg hh, List.mem_cons] at h
      rcases h with h | h
      · left; simp [h]
      · rcases ih h with h2 | h2
        · left; exact List.mem_cons_of_mem _ h2
        · right; exact h2

theorem getA_eq_some_mem {α β : Type} [DecidableEq α] (m : List (α × β))
    (k : α) (v : β) (h : getA m k = some v) : (k, v) ∈ m := by
  induction m with
  | nil => simp [getA] at h
  | cons hd tl ih =>
    obtain ⟨a, b⟩ := hd
    by_cases hh : a = k
    · simp [getA, hh] at h
      simp [hh, h]
    · simp [getA, hh] at h
      exact List.mem_cons_of_mem _ (ih h)

theorem getA_eraseA_self {α β : Type} [DecidableEq α] (m : List (α × β))
    (k : α) (hnd : (m.map Prod.fst).Nodup) : getA (eraseA m k) k = none := by
  induction m with
  | nil => simp [eraseA, getA]
  | cons hd tl ih =>
    obtain ⟨a, b⟩ := hd
    simp only [List.map_cons, List.nodup_cons] at hnd
    by_cases hh : a = k
    · subst hh
      simp only [eraseA, if_pos rfl]
      cases hgk : getA tl a with
      | none => exact hgk
      | some v =>
        exact absurd (List.mem_map_of_mem Prod.fst (getA_eq_some_mem tl a v hgk))
          hnd.1
    · simp [eraseA, hh, getA, ih hnd.2]

theorem isSome_getA_setA {α β : Type} [DecidableEq α] (m : List (α × β))
    (k k' : α) (v : β) (h : (getA m k').isSome) :
    (getA (setA m k v) k').isSome := by
  by_cases hh : k' = k
  · subst hh; simp [getA_setA_self]
  · rwa [getA_setA_ne m k k' v hh]

theorem getA2_setA2_self {β : Type} (m : List (String × List (String × β)))
    (u d : String) (v : β) : getA2 (setA2 m u d v) u d = some v := by
  unfold getA2 setA2
  rw [getA_setA_self]
  simp [getA_setA_self]

theorem getA2_setA2_ne {β : Type} (m : List (String × List (String × β)))
    (u d u' d' : String) (v : β) (h : (u', d') ≠ (u, d)) :
    getA2 (setA2 m u d v) u' d' = getA2 m u' d' := by
  unfold getA2 setA2
  by_cases hu : u' = u
  · subst hu
    have hd : d' ≠ d := fun hdd => h (by rw [hdd])
    rw [getA_setA_self]
    simp only [Option.getD_some]
    rw [getA_setA_ne _ d d' v hd]
  · rw [getA_setA_ne m u u' _ hu]

theorem foldl_preserve {α β : Type} (P : β → Prop) (f : β → α → β)
    (l : List α) (b : β) (h0 : P b)
    (hstep : ∀ b' a, a ∈ l → P b' → P (f b' a)) : P (l.foldl f b) := by
  induction l generalizing b with
  | nil => exact h0
  | cons hd tl ih =>
    exact ih (f b hd) (hstep b hd (List.mem_cons_self hd tl) h0)
      (fun b' a ha => hstep b' a (List.mem_cons_of_mem hd ha))

theorem filter_eq_self_of_length {α : Type} (l : List α) (p : α → Bool)
    (h : (l.filter p).length = l.length) : l.filter p = l :=
  List.Sublist.eq_of_length (List.filter_sublist l) h

/-! ## C2: the directionality rule -/

theorem wantsOutgoingCall_eq_true_iff (lU lD u d : String) :
    wantsOutgoingCall lU lD u d = true ↔ (lU < u ∨ (u = lU ∧ lD < d)) := by
  unfold wantsOutgoingCall
  simp only [Bool.and_eq_true, Bool.or_eq_true, Bool.not_eq_true',
    beq_eq_false_iff_ne, decide_eq_true_eq, ne_eq, ge_iff_le, gt_iff_lt]
  constructor
  · rintro ⟨hge, hne | hlt⟩
    · exact Or.inl (lt_of_le_of_ne hge (fun hh => hne hh.symm))
    · rcases eq_or_lt_of_le hge with heq | hlt2
      · exact Or.inr ⟨heq.symm, hlt⟩
      · exact Or.inl hlt2
  · rintro (hlt | ⟨heq, hlt⟩)
    · exact ⟨le_of_lt hlt, Or.inl (ne_of_gt hlt)⟩
    · exact ⟨heq.ge, Or.inr hlt⟩

/-- Claim C2: evaluated at a local pair, wantsOutgoingCall of a remote pair
holds iff the remote user id is greater, or equal with a greater device id,
under lexicographic string order; over distinct pairs the relation is
antisymmetric and total (exactly one side of any distinct pair satisfies it)
and transitive, so exactly one originator exists for any pair. -/
theorem wantsOutgoingCall_directionality (ul dl ur dr : String) :
    (wantsOutgoingCall ul dl ur dr = true ↔ ul < ur ∨ (ur = ul ∧ dl < dr))
    ∧ ((ur, dr) ≠ (ul, dl) →
      (wantsOutgoingCall ul dl ur dr = true ↔
        ¬ wantsOutgoingCall ur dr ul dl = true))
    ∧ ∀ u3 d3, wantsOutgoingCall ul dl ur dr = true →
      wantsOutgoingCall ur dr u3 d3 = true →
      wantsOutgoingCall ul dl u3 d3 = true := by
  refine ⟨wantsOutgoingCall_eq_true_iff ul dl ur dr, ?_, ?_⟩
  · intro hne
    rw [wantsOutgoingCall_eq_true_iff, wantsOutgoingCall_eq_true_iff]
    constructor
    · rintro (hlt | ⟨heq, hlt⟩) (hlt2 | ⟨heq2, hlt2⟩)
      · exact lt_asymm hlt hlt2
      · exact absurd heq2 (ne_of_lt hlt)
      · rw [heq] at hlt2; exact lt_irrefl ul hlt2
      · exact lt_asymm hlt hlt2
    · intro hno
      rcases lt_trichotomy ul ur with h | h | h
      · exact Or.inl h
      · rcases lt_trichotomy dl dr with h2 | h2 | h2
        · exact Or.inr ⟨h.symm, h2⟩
        · exact absurd (Prod.ext h.symm h2.symm) hne
        · exact absurd (Or.inr ⟨h, h2⟩) hno
      · exact absurd (Or.inl h) hno
  · intro u3 d3 h1 h2
    rw [wantsOutgoingCall_eq_true_iff] at h1 h2 ⊢
    rcases h1 with h1l | ⟨he1, hl1⟩
    · rcases h2 with h2l | ⟨he2, hl2⟩
      · exact Or.inl (lt_trans h1l h2l)
      · rw [he2]; exact Or.inl h1l
    · rcases h2 with h2l | ⟨he2, hl2⟩
      · rw [he1] at h2l; exact Or.inl h2l
      · exact Or.inr ⟨he2.trans he1, lt_trans hl1 hl2⟩

/-- Witness for C2: the antisymmetry conjunct applied at the concrete pairs
of scenario S2 shows the lower pair does not place the call. -/
theorem wantsOutgoingCall_directionality_witness :
    wantsOutgoingCall "@b:h" "DB" "@a:h" "DA" = false :=
  Bool.eq_false_iff.mpr
    (((wantsOutgoingCall_directionality "@a:h" "DA" "@b:h" "DB").2.1
      (by decide)).mp
      ((wantsOutgoingCall_eq_true_iff "@a:h" "DA" "@b:h" "DB").mpr
        (Or.inl (String.lt_iff_toList_lt.mpr (by decide)))))

/-! ## C10: mute accessors with no local feed -/

/-- Claim C10: when no local call feed exists, isMicrophoneMuted and
isLocalVideoMuted both return true, so an observer reads the local device as
muted in the uninitialized state. -/
theorem accessors_muted_when_uninitialized (st : MediaState)
    (h : st.localFeed = none) :
    isMicrophoneMuted st = true ∧ isLocalVideoMuted st = true := by
  simp [isMicrophoneMuted, isLocalVideoMuted, h]

/-- Witness for C10 at the empty media state. -/
theorem accessors_muted_when_uninitialized_witness :
    isMicrophoneMuted mediaState0 = true ∧
    isLocalVideoMuted mediaState0 = true :=
  accessors_muted_when_uninitialized mediaState0 rfl

/-! ## C8: the unmute guard -/

/-- Claim C8: an unmute request with no corresponding input device returns
false, changes neither the local mute state, nor the call feeds, nor the
deferred init mute bits, and emits no LocalMuteStateChanged; a mute request
always proceeds and returns true. -/
theorem mute_guard (hasDev muted : Bool) (st : MediaState) :
    (muted = false → hasDev = false →
      setMicrophoneMuted hasDev muted st = (false, st, []) ∧
      setLocalVideoMuted hasDev muted st = (false, st, [])) ∧
    (muted = true →
      (setMicrophoneMuted hasDev muted st).1 = true ∧
      (setLocalVideoMuted hasDev muted st).1 = true) := by
  constructor
  · rintro rfl rfl
    simp [setMicrophoneMuted, setLocalVideoMuted]
  · rintro rfl
    constructor
    · simp only [setMicrophoneMuted, Bool.not_true, Bool.false_and,
        Bool.false_eq_true, if_false]
    · simp only [setLocalVideoMuted, Bool.not_true, Bool.false_and,
        Bool.false_eq_true, if_false]

/-- Witness for C8: a rejected unmute at the empty media state. -/
theorem mute_guard_witness :
    setMicrophoneMuted false false mediaState0 = (false, mediaState0, []) ∧
    setLocalVideoMuted false false mediaState0 = (false, mediaState0, []) :=
  (mute_guard false false mediaState0).1 rfl rfl

/-! ## C1: the handler table is not cleaned up under the stored key -/

/-- Claim C1 evaluation: initCall stores the handlers under
("@b:h", "DB"); after the hangup path disposes the call and removes it from
the calls map, the handler entry is still present, because disposeCall
deletes the user id, not the device id, from the inner map (line 937).  The
key sets of the two maps differ afterwards. -/
theorem handler_table_leak :
    hangupStep [("@b:h", [("DB", 0)])] (initCallHandlers [] "@b:h" "DB")
      "@b:h" "DB" 0 = some ([], [("@b:h", [("DB", 0)])]) := by
  decide

/-! ## C5: the active-speaker score -/

/-- Claim C5 evaluation: with threshold -60 and feeds feedA (samples [-55])
and feedB (samples [-72, -40]), the clamped arithmetic mean of the claim
ranks feedB highest (-50 against -55, both above the threshold), but the
source, whose reduce has no initial value and leaves the first sample
unclamped, scores feedB at -56, selects feedA and publishes it. -/
theorem active_speaker_divergence :
    onActiveSpeakerLoop (-60) [feedA, feedB] none = some (some 0, true)
    ∧ specClampedMean (-60) feedA < specClampedMean (-60) feedB
    ∧ (-60 : Rat) < specClampedMean (-60) feedB := by
  have hA : feedAvg (-60) feedA = some (-55) := by
    simp only [feedAvg, clampSum, feedA, List.foldl_nil, Option.map_some']
    norm_num
  have hB : feedAvg (-60) feedB = some (-56) := by
    simp only [feedAvg, clampSum, feedB, List.foldl_cons, List.foldl_nil,
      Option.map_some']
    norm_num [max_def]
  have e1 : (((-55 : Rat)) == 0) = false := beq_eq_false_iff_ne.mpr (by norm_num)
  have e2 : (decide ((-55 : Rat) < -56)) = false := decide_eq_false (by norm_num)
  have e3 : (decide ((-60 : Rat) < -55)) = true := decide_eq_true (by norm_num)
  have hAl : feedA.isLocalFeed = false := rfl
  have hBl : feedB.isLocalFeed = false := rfl
  have hAf : feedA.fid = 0 := rfl
  have hBf : feedB.fid = 1 := rfl
  refine ⟨?_, ?_, ?_⟩
  · simp only [onActiveSpeakerLoop, List.length_cons, List.length_nil,
      scanFeeds, hA, hB, hAl, hBl, hAf, hBf]
    simp only [e1, e2, e3]
    norm_num [e1]
  · simp only [specClampedMean, feedA, feedB, List.map_cons, List.map_nil,
      List.sum_cons, List.sum_nil, List.length_cons, List.length_nil]
    norm_num [max_def]
  · simp only [specClampedMean, feedB, List.map_cons, List.map_nil,
      List.sum_cons, List.sum_nil, List.length_cons, List.length_nil]
    norm_num [max_def]

/-! ## C9: retry counting -/

/-- Counterexample to C9: slot ("@b:h", "DB") already has a retry count of
three, yet because the sibling slot ("@b:h", "DC") still flags a retry, the
tick runs a placement pass that attempts placement for the capped slot as
well: placement itself never consults the retry counters. -/
theorem retry_cap_counterexample :
    retryTick "@a:h" "DA" partsRetry [] countsRetry =
      ([("@b:h", [("DB", 3), ("DC", 1)])],
        [("@b:h", "DB"), ("@b:h", "DC")])
    ∧ getA2 countsRetry "@b:h" "DB" = some 3 := by
  have h1 : wantsOutgoingCall "@a:h" "DA" "@b:h" "DB" = true :=
    (wantsOutgoingCall_eq_true_iff "@a:h" "DA" "@b:h" "DB").mpr
      (Or.inl (String.lt_iff_toList_lt.mpr (by decide)))
  have h2 : wantsOutgoingCall "@a:h" "DA" "@b:h" "DC" = true :=
    (wantsOutgoingCall_eq_true_iff "@a:h" "DA" "@b:h" "DC").mpr
      (Or.inl (String.lt_iff_toList_lt.mpr (by decide)))
  have s1 : slotNeedsCall "@a:h" "DA" [] "@b:h" "DB" ⟨"s1", false⟩ = true := by
    simp [slotNeedsCall, getA2, getA, h1]
  have s2 : slotNeedsCall "@a:h" "DA" [] "@b:h" "DC" ⟨"s2", false⟩ = true := by
    simp [slotNeedsCall, getA2, getA, h2]
  constructor
  · simp only [retryTick, onRetryCallLoop, placeOutgoingCallSlots, partsRetry,
      countsRetry, List.foldl_cons, List.foldl_nil]
    simp [s1, s2, getA2, getA, setA2, setA, List.filter]
  · decide

/-! ## Helper lemmas on updateDevices -/

theorem updateDevices_none_iff (g u : String) (now : Int)
    (content : Option (List CallEntry))
    (fn : List RawDevice → Option (List RawDevice)) (ka : Bool) :
    updateDevices g u now content fn ka = none ↔
      fn (validDevicesOf now (storedDevices g content)) = none := by
  unfold updateDevices
  cases h : fn (validDevicesOf now (storedDevices g content)) <;> simp [h]

theorem updateDevices_eq_some (g u : String) (now : Int)
    (content : Option (List CallEntry))
    (fn : List RawDevice → Option (List RawDevice)) (ka : Bool)
    (nd : List RawDevice)
    (h : fn (validDevicesOf now (storedDevices g content)) = some nd) :
    updateDevices g u now content fn ka = some
      { stateKey := u,
        mcalls := otherCalls g content ++
          (if 0 < nd.length then
            [{ call_id := g,
               foci := (storedOurCall g content).bind CallEntry.foci,
               devices := some nd }]
          else []),
        keepAlive := ka } := by
  unfold updateDevices
  rw [h]

theorem mem_otherCalls_ne (g : String) (content : Option (List CallEntry))
    (c : CallEntry) (h : c ∈ otherCalls g content) : ¬ c.call_id = g := by
  unfold otherCalls at h
  have := (List.mem_filter.mp h).2
  simpa using this

theorem otherCalls_filter_self (g : String)
    (content : Option (List CallEntry)) :
    (otherCalls g content).filter (fun c => !(c.call_id == g)) =
      otherCalls g content := by
  rw [List.filter_eq_self]
  intro c hc
  simpa using mem_otherCalls_ne g content c hc

theorem updateDevices_some_spec (g u : String) (now : Int)
    (content : Option (List CallEntry))
    (fn : List RawDevice → Option (List RawDevice)) (ka : Bool)
    (nd : List RawDevice)
    (h : fn (validDevicesOf now (storedDevices g content)) = some nd) :
    ∃ w, updateDevices g u now content fn ka = some w
      ∧ w.stateKey = u ∧ w.keepAlive = ka
      ∧ w.mcalls.filter (fun c => !(c.call_id == g)) = otherCalls g content
      ∧ ((∃ c ∈ w.mcalls, c.call_id = g) ↔ nd ≠ [])
      ∧ (∀ c ∈ w.mcalls, c.call_id = g → c.devices = some nd) := by
  refine ⟨_, updateDevices_eq_some g u now content fn ka nd h, rfl, rfl,
    ?_, ?_, ?_⟩
  · rw [List.filter_append, otherCalls_filter_self]
    by_cases hnd : 0 < nd.length
    · simp [hnd]
    · simp [hnd]
  · constructor
    · rintro ⟨c, hc, hcg⟩
      rcases List.mem_append.mp hc with hmem | hmem
      · exact absurd hcg (mem_otherCalls_ne g content c hmem)
      · by_cases hnd : 0 < nd.length
        · exact List.ne_nil_of_length_pos hnd
        · rw [if_neg hnd] at hmem
          simp at hmem
    · intro hne
      have hnd : 0 < nd.length := List.length_pos.mpr hne
      exact ⟨{ call_id := g,
               foci := (storedOurCall g content).bind CallEntry.foci,
               devices := some nd },
        List.mem_append_right _
          (by rw [if_pos hnd]; exact List.mem_singleton_self _), rfl⟩
  · intro c hc hcg
    rcases List.mem_append.mp hc with hmem | hmem
    · exact absurd hcg (mem_otherCalls_ne g content c hmem)
    · by_cases hnd : 0 < nd.length
      · rw [if_pos hnd] at hmem
        rw [List.mem_singleton.mp hmem]
      · rw [if_neg hnd] at hmem
        simp at hmem

/-! ## C6: the read-modify-write of updateDevices -/

/-- Counterexample to C6: with the identity mutation, a stored valid device
whose expiry is 5 is written back verbatim, so the written devices do not
carry a fresh expiry of now plus DEVICE_TIMEOUT as the claim states for
every mutation function. -/
theorem updateDevices_fresh_counterexample :
    updateDevices "G" "@a:h" 0 contentStale (fun ds => some ds) false =
      some ⟨"@a:h", [⟨"G", none, some [deviceStale]⟩], false⟩
    ∧ deviceStale.expires_ts ≠ JField.jnum (0 + DEVICE_TIMEOUT) := by
  constructor <;> decide

/-- Claim C6 (amended): updateDevices aborts without a write when the
mutation returns null; otherwise it writes an event with state key the local
user id that preserves every entry with a different call id verbatim and
contains an entry for this group call id iff the new device list is
non-empty, carrying exactly the devices the mutation returned.  Only the
local device advertisement appended by addDeviceToMemberState carries a
fresh expiry of now plus DEVICE_TIMEOUT, with DEVICE_TIMEOUT equal to
3600000 ms; devices kept by a mutation retain their stored expiry. -/
theorem updateDevices_rmw (g u : String) (now : Int)
    (content : Option (List CallEntry))
    (fn : List RawDevice → Option (List RawDevice)) (ka : Bool) :
    (fn (validDevicesOf now (storedDevices g content)) = none →
      updateDevices g u now content fn ka = none)
    ∧ (∀ nd, fn (validDevicesOf now (storedDevices g content)) = some nd →
      ∃ w, updateDevices g u now content fn ka = some w
        ∧ w.stateKey = u ∧ w.keepAlive = ka
        ∧ w.mcalls.filter (fun c => !(c.call_id == g)) = otherCalls g content
        ∧ ((∃ c ∈ w.mcalls, c.call_id = g) ↔ nd ≠ [])
        ∧ (∀ c ∈ w.mcalls, c.call_id = g → c.devices = some nd))
    ∧ (∀ lD lS purposes ds, ∃ nd,
        addDeviceFn lD lS now purposes ds = some nd ∧
        nd.getLast? = some
          { device_id := JField.jstr lD, session_id := JField.jstr lS,
            expires_ts := JField.jnum (now + DEVICE_TIMEOUT),
            feeds := JField.jfeeds (purposes.map RawFeed.mk) })
    ∧ DEVICE_TIMEOUT = 3600000 := by
  refine ⟨?_, ?_, ?_, rfl⟩
  · intro h
    exact (updateDevices_none_iff g u now content fn ka).mpr h
  · intro nd h
    exact updateDevices_some_spec g u now content fn ka nd h
  · intro lD lS purposes ds
    exact ⟨_, rfl, List.getLast?_concat _⟩

/-- Witness for C6: a mutation returning null skips the write. -/
theorem updateDevices_rmw_witness :
    updateDevices "G" "@a:h" 0 none (fun _ => none) false = none :=
  (updateDevices_rmw "G" "@a:h" 0 none (fun _ => none) false).1 rfl

/-! ## C7: cleanMemberState is a no-op iff the filter removes nothing -/

/-- Counterexample to C7: the stored list holds a single expired device that
is unknown to the identity service.  Filtering the stored list by the
cleanup predicate removes it, so by the claim a write should occur, but
cleanMemberState performs no write: updateDevices already dropped the
expired device before the mutation ran, so the mutation saw no change. -/
theorem cleanMemberState_expired_counterexample :
    cleanMemberState "G" "@a:h" 0 contentExpired [] "DL" GState.uninit
        false = none
    ∧ (storedDevices "G" contentExpired).filter
        (cleanKeep (myDeviceMap []) "DL" GState.uninit false) ≠
      storedDevices "G" contentExpired := by
  constructor <;> decide

/-- Claim C7 (amended): cleanMemberState skips the write iff its filter
removes nothing from the device list updateDevices passes to the mutation,
which is the stored list after the structural-validity and expiry filter;
when it writes, the filter removed at least one such device and the written
entry carries exactly the filtered list. -/
theorem cleanMemberState_noop_iff (g u : String) (now : Int)
    (content : Option (List CallEntry)) (myDevices : List MyDevice)
    (lD : String) (st : GState) (eVAS : Bool) :
    (cleanMemberState g u now content myDevices lD st eVAS = none ↔
      (validDevicesOf now (storedDevices g content)).filter
          (cleanKeep (myDeviceMap myDevices) lD st eVAS) =
        validDevicesOf now (storedDevices g content))
    ∧ (∀ w, cleanMemberState g u now content myDevices lD st eVAS = some w →
      (validDevicesOf now (storedDevices g content)).filter
          (cleanKeep (myDeviceMap myDevices) lD st eVAS) ≠
        validDevicesOf now (storedDevices g content)
      ∧ ∀ c ∈ w.mcalls, c.call_id = g →
        c.devices = some
          ((validDevicesOf now (storedDevices g content)).filter
            (cleanKeep (myDeviceMap myDevices) lD st eVAS))) := by
  constructor
  · rw [cleanMemberState, updateDevices_none_iff]
    unfold cleanFn
    constructor
    · intro h
      by_cases hl : ((validDevicesOf now (storedDevices g content)).filter
          (cleanKeep (myDeviceMap myDevices) lD st eVAS)).length =
          (validDevicesOf now (storedDevices g content)).length
      · exact filter_eq_self_of_length _ _ hl
      · rw [if_neg hl] at h
        exact Option.noConfusion h
    · intro h
      rw [if_pos (by rw [h])]
  · intro w hw
    have hlen : ¬ ((validDevicesOf now (storedDevices g content)).filter
        (cleanKeep (myDeviceMap myDevices) lD st eVAS)).length =
        (validDevicesOf now (storedDevices g content)).length := by
      intro hl
      have hnone : cleanMemberState g u now content myDevices lD st eVAS =
          none := by
        rw [cleanMemberState, updateDevices_none_iff]
        unfold cleanFn
        rw [if_pos hl]
      rw [hnone] at hw
      exact Option.noConfusion hw
    have hne : (validDevicesOf now (storedDevices g content)).filter
        (cleanKeep (myDeviceMap myDevices) lD st eVAS) ≠
        validDevicesOf now (storedDevices g content) :=
      fun he => hlen (by rw [he])
    have hfn : cleanFn myDevices lD st eVAS
        (validDevicesOf now (storedDevices g content)) =
        some ((validDevicesOf now (storedDevices g content)).filter
          (cleanKeep (myDeviceMap myDevices) lD st eVAS)) := by
      unfold cleanFn
      rw [if_neg hlen]
    obtain ⟨w2, hw2, _, _, _, _, hdev⟩ :=
      updateDevices_some_spec g u now content
        (cleanFn myDevices lD st eVAS) false _ hfn
    rw [cleanMemberState, hw2] at hw
    rw [← Option.some.inj hw]
    exact ⟨hne, hdev⟩

/-- Witness for C7: with no stored member-state content the filtered list
equals the empty input and no write occurs. -/
theorem cleanMemberState_noop_iff_witness :
    cleanMemberState "G" "@a:h" 0 none [] "DA" GState.uninit false = none :=
  (cleanMemberState_noop_iff "G" "@a:h" 0 none [] "DA" GState.uninit
    false).1.mpr rfl

/-! ## Helper lemmas on the retry loop -/

theorem onRetryCallLoop_preserves (lU lD : String) (participants : PartMap)
    (calls : SlotCalls) (counts0 : Counts) (P : Counts → Prop)
    (hP0 : P counts0)
    (hstep : ∀ c u d r, P c → (getA2 c u d).getD 0 = r → r < 3 →
      P (setA2 c u d (r + 1))) :
    P (onRetryCallLoop lU lD participants calls counts0).1 := by
  unfold onRetryCallLoop
  refine foldl_preserve (fun acc : Counts × Bool => P acc.1) _ participants
    (counts0, false) hP0 ?_
  intro b mp _ hPb
  refine foldl_preserve (fun acc : Counts × Bool => P acc.1) _ mp.2 b hPb ?_
  intro b2 dp _ hPb2
  dsimp only
  by_cases hc : (slotNeedsCall lU lD calls mp.1 dp.1 dp.2
      && decide ((getA2 b2.1 mp.1 dp.1).getD 0 < 3)) = true
  · rw [if_pos hc]
    rw [Bool.and_eq_true] at hc
    exact hstep b2.1 mp.1 dp.1 _ hPb2 rfl (of_decide_eq_true hc.2)
  · rw [if_neg hc]
    exact hPb2

/-! ## C9: retry counting -/

/-- Claim C9 (amended): on each retry tick a per-slot retry count is
incremented only while strictly below three: a count at three or more is
never changed, and counts never exceed three.  When no slot flags a retry
the tick runs no placement pass at all; a placement pass triggered by some
under-threshold slot, however, attempts every eligible slot, including
capped ones, because placement never consults the counters (see the
counterexample).  When a call reaches Connected its retry entry is
deleted. -/
theorem retry_counter_spec (lU lD : String) (participants : PartMap)
    (calls : SlotCalls) (counts0 : Counts) :
    (∀ u d, 3 ≤ (getA2 counts0 u d).getD 0 →
      getA2 (onRetryCallLoop lU lD participants calls counts0).1 u d =
        getA2 counts0 u d)
    ∧ ((∀ u d n, getA2 counts0 u d = some n → n ≤ 3) →
      ∀ u d n,
        getA2 (onRetryCallLoop lU lD participants calls counts0).1 u d =
          some n → n ≤ 3)
    ∧ ((onRetryCallLoop lU lD participants calls counts0).2 = false →
      (retryTick lU lD participants calls counts0).2 = [])
    ∧ (∀ u d, (counts0.map Prod.fst).Nodup →
      (∀ dm, getA counts0 u = some dm → (dm.map Prod.fst).Nodup) →
      getA2 (clearRetries counts0 u d) u d = none) := by
  refine ⟨?_, ?_, ?_, ?_⟩
  · intro u d h3
    refine onRetryCallLoop_preserves lU lD participants calls counts0
      (fun c => ∀ u' d', 3 ≤ (getA2 counts0 u' d').getD 0 →
        getA2 c u' d' = getA2 counts0 u' d')
      (fun _ _ _ => rfl) ?_ u d h3
    intro c u' d' r hPc hr hlt u2 d2 h32
    by_cases hud : (u2, d2) = (u', d')
    · exfalso
      obtain ⟨h1, h2⟩ : u2 = u' ∧ d2 = d' :=
        Prod.mk.injEq u2 d2 u' d' ▸ hud
      subst h1; subst h2
      rw [hPc u2 d2 h32] at hr
      omega
    · rw [getA2_setA2_ne c u' d' u2 d2 _ hud]
      exact hPc u2 d2 h32
  · intro hbase
    refine onRetryCallLoop_preserves lU lD participants calls counts0
      (fun c => ∀ u' d' n, getA2 c u' d' = some n → n ≤ 3) hbase ?_
    intro c u' d' r hPc hr hlt u2 d2 n hn
    by_cases hud : (u2, d2) = (u', d')
    · obtain ⟨h1, h2⟩ : u2 = u' ∧ d2 = d' :=
        Prod.mk.injEq u2 d2 u' d' ▸ hud
      subst h1; subst h2
      rw [getA2_setA2_self] at hn
      have hn2 : r + 1 = n := Option.some.inj hn
      omega
    · rw [getA2_setA2_ne c u' d' u2 d2 _ hud] at hn
      exact hPc u2 d2 n hn
  · intro h
    simp [retryTick, h]
  · intro u d hndO hndI
    unfold clearRetries
    cases hg : getA counts0 u with
    | none => simp [getA2, hg, getA]
    | some dm =>
      dsimp only
      by_cases hlen : (eraseA dm d).length = 0
      · rw [if_pos hlen]
        unfold getA2
        rw [getA_eraseA_self counts0 u hndO]
        simp [getA]
      · rw [if_neg hlen]
        unfold getA2
        rw [getA_setA_self]
        simp only [Option.getD_some]
        exact getA_eraseA_self dm d (hndI dm hg)

/-- Witness for C9: a single slot whose count already reached three flags no
retry, so the tick attempts no placement. -/
theorem retry_counter_spec_witness :
    (retryTick "@a:h" "DA" partsSingle [] countsRetry).2 = [] := by
  apply (retry_counter_spec "@a:h" "DA" partsSingle [] countsRetry).2.2.1
  have h1 : wantsOutgoingCall "@a:h" "DA" "@b:h" "DB" = true :=
    (wantsOutgoingCall_eq_true_iff "@a:h" "DA" "@b:h" "DB").mpr
      (Or.inl (String.lt_iff_toList_lt.mpr (by decide)))
  have s1 : slotNeedsCall "@a:h" "DA" [] "@b:h" "DB" ⟨"s1", false⟩ = true := by
    simp [slotNeedsCall, getA2, getA, h1]
  simp [onRetryCallLoop, partsSingle, countsRetry, s1, getA2, getA]

/-! ## Helper lemmas on the participant view -/

theorem admitEvent_eq_true_iff (g lU lD : String) (now : Int) (entered : Bool)
    (members : RoomMembers) (e : MemberEvent) :
    admitEvent g lU lD now entered members e = true ↔
      (eventValidDevices g lU lD now entered members e ≠ []
        ∧ getMembership members e.stateKey = some "join") := by
  unfold admitEvent
  rw [Bool.and_eq_true, decide_eq_true_eq, beq_iff_eq, List.length_pos]

theorem stepEvent_isSome (g lU lD : String) (now : Int) (entered : Bool)
    (members : RoomMembers) (acc : List (String × List (String × PState)))
    (e : MemberEvent) (u : String) (h : (getA acc u).isSome) :
    (getA (stepEvent g lU lD now entered members acc e) u).isSome := by
  unfold stepEvent
  by_cases hadm : admitEvent g lU lD now entered members e = true
  · rw [if_pos hadm]
    exact isSome_getA_setA acc e.stateKey u _ h
  · rw [if_neg hadm]
    exact h

theorem foldl_stepEvent_isSome (g lU lD : String) (now : Int)
    (entered : Bool) (members : RoomMembers) (events : List MemberEvent)
    (acc : List (String × List (String × PState))) (u : String)
    (h : (getA acc u).isSome) :
    (getA (events.foldl (stepEvent g lU lD now entered members) acc)
      u).isSome := by
  induction events generalizing acc with
  | nil => exact h
  | cons e es ih =>
    exact ih _ (stepEvent_isSome g lU lD now entered members acc e u h)

theorem recordView_getA_some (g lU lD : String) (now : Int) (entered : Bool)
    (members : RoomMembers) (events : List MemberEvent)
    (acc : List (String × List (String × PState))) (u : String)
    (dm : List (String × PState))
    (h : getA (events.foldl (stepEvent g lU lD now entered members) acc) u =
      some dm) :
    getA acc u = some dm ∨ ∃ e ∈ events, e.stateKey = u
      ∧ admitEvent g lU lD now entered members e = true
      ∧ dm = deviceMapOf (eventValidDevices g lU lD now entered members e) := by
  induction events generalizing acc with
  | nil => exact Or.inl h
  | cons e es ih =>
    rcases ih (stepEvent g lU lD now entered members acc e) h with
      hl | ⟨e2, he2, hsk, hadm, hdm⟩
    · unfold stepEvent at hl
      by_cases hadm : admitEvent g lU lD now entered members e = true
      · rw [if_pos hadm] at hl
        by_cases hu : e.stateKey = u
        · rw [hu, getA_setA_self] at hl
          refine Or.inr ⟨e, List.mem_cons_self e es, hu, hadm, ?_⟩
          exact (Option.some.inj hl).symm
        · rw [getA_setA_ne acc e.stateKey u _ (fun hh => hu hh.symm)] at hl
          exact Or.inl hl
      · rw [if_neg hadm] at hl
        exact Or.inl hl
    · exact Or.inr ⟨e2, List.mem_cons_of_mem _ he2, hsk, hadm, hdm⟩

theorem recordView_isSome_of_mem (g lU lD : String) (now : Int)
    (entered : Bool) (members : RoomMembers) (events : List MemberEvent)
    (acc : List (String × List (String × PState))) (u : String)
    (e : MemberEvent) (he : e ∈ events) (hsk : e.stateKey = u)
    (hadm : admitEvent g lU lD now entered members e = true) :
    (getA (events.foldl (stepEvent g lU lD now entered members) acc)
      u).isSome := by
  induction events generalizing acc with
  | nil => cases he
  | cons e0 es ih =>
    rcases List.mem_cons.mp he with rfl | hmem
    · refine foldl_stepEvent_isSome g lU lD now entered members es _ u ?_
      unfold stepEvent
      rw [if_pos hadm, ← hsk, getA_setA_self]
      rfl
    · exact ih (stepEvent g lU lD now entered members acc e0) hmem

theorem mem_deviceMapOf_core (ds : List RawDevice)
    (init : List (String × PState)) (d : String) (p : PState)
    (h : (d, p) ∈ ds.foldl
      (fun dm x => setA dm x.deviceIdStr (pstateOf x)) init) :
    (d, p) ∈ init ∨ ∃ rd ∈ ds, rd.deviceIdStr = d ∧ p = pstateOf rd := by
  induction ds generalizing init with
  | nil => exact Or.inl h
  | cons x xs ih =>
    rcases ih _ h with hl | ⟨rd, hrd, h1, h2⟩
    · rcases mem_setA init x.deviceIdStr (pstateOf x) (d, p) hl with hm | he
      · exact Or.inl hm
      · obtain ⟨h1, h2⟩ : d = x.deviceIdStr ∧ p = pstateOf x :=
          Prod.mk.injEq d p x.deviceIdStr (pstateOf x) ▸ he
        exact Or.inr ⟨x, List.mem_cons_self x xs, h1.symm, h2⟩
    · exact Or.inr ⟨rd, List.mem_cons_of_mem _ hrd, h1, h2⟩

theorem mem_deviceMapOf (ds : List RawDevice) (d : String) (p : PState)
    (h : (d, p) ∈ deviceMapOf ds) :
    ∃ rd ∈ ds, rd.deviceIdStr = d ∧ p = pstateOf rd := by
  rcases mem_deviceMapOf_core ds [] d p h with hl | hr
  · cases hl
  · exact hr

theorem mem_eventValidDevices (g lU lD : String) (now : Int) (entered : Bool)
    (members : RoomMembers) (e : MemberEvent) (rd : RawDevice)
    (h : rd ∈ eventValidDevices g lU lD now entered members e) :
    rd ∈ eventDevices g e ∧ validDevice now rd = true := by
  unfold eventValidDevices at h
  by_cases hc : (!entered && (getMembership members e.stateKey).isSome
      && (e.stateKey == lU)) = true
  · rw [if_pos hc] at h
    have h2 := List.mem_filter.mp h
    have h3 := List.mem_filter.mp h2.1
    exact ⟨h3.1, h3.2⟩
  · rw [if_neg hc] at h
    have h3 := List.mem_filter.mp h
    exact ⟨h3.1, h3.2⟩

theorem mem_eventValidDevices_local (g lU lD : String) (now : Int)
    (members : RoomMembers) (e : MemberEvent) (rd : RawDevice)
    (hmem : (getMembership members e.stateKey).isSome = true)
    (hsk : e.stateKey = lU)
    (h : rd ∈ eventValidDevices g lU lD now false members e) :
    ¬ rd.deviceIdStr = lD := by
  have hmem2 : (getMembership members lU).isSome = true := hsk ▸ hmem
  unfold eventValidDevices at h
  rw [if_pos (by simp [hsk, hmem2])] at h
  have h2 := (List.mem_filter.mp h).2
  simpa using h2

theorem validDevice_expires (now : Int) (d : RawDevice)
    (h : validDevice now d = true) : now < d.expiresTs := by
  unfold validDevice at h
  unfold RawDevice.expiresTs
  cases hex : d.expires_ts with
  | jnum n =>
    rw [hex] at h
    simp only [Bool.and_eq_true, decide_eq_true_eq] at h
    exact h.1.2
  | jstr s => rw [hex] at h; simp at h
  | jfeeds fs => rw [hex] at h; simp at h
  | jother => rw [hex] at h; simp at h

theorem updateParticipants_notEntered (g lU lD lS : String)
    (lf : List String) (members : RoomMembers) (events : List MemberEvent)
    (st : GState) (eVAS : Bool) (now : Int) (hend : st ≠ GState.ended)
    (hst : st ≠ GState.entered) (hev : eVAS = false) :
    updateParticipants g lU lD lS lf members events st eVAS now =
      recordView g lU lD now false members events := by
  unfold updateParticipants
  rw [if_neg hend]
  simp only [hev, decide_eq_false hst, Bool.or_false, Bool.false_eq_true,
    if_false]

theorem updateParticipants_entered (g lU lD lS : String) (lf : List String)
    (members : RoomMembers) (events : List MemberEvent) (st : GState)
    (eVAS : Bool) (now : Int) (hend : st ≠ GState.ended)
    (hent : st = GState.entered ∨ eVAS = true) :
    updateParticipants g lU lD lS lf members events st eVAS now =
      applyEcho lU lD lS lf members
        (recordView g lU lD now true members events) := by
  unfold updateParticipants
  rw [if_neg hend]
  have he : (decide (st = GState.entered) || eVAS) = true := by
    rcases hent with h | h
    · simp [h]
    · simp [h]
  simp only [he, if_true]

/-! ## C3: structural validation of the participant view -/

/-- Counterexample to C3: in the entered state with no member-state events
at all, the local-echo insertion makes the local member appear in the view,
although no valid device record remains after filtering; the claim requires
the view to be empty here. -/
theorem participants_validity_counterexample :
    updateParticipants "G" "@a:h" "DA" "s0" [] [("@a:h", "join")] []
      GState.entered false 0 = [("@a:h", [("DA", ⟨"s0", false⟩)])] := by
  decide

/-- Claim C3 (amended): when the call is not considered entered (state is
not Entered and enteredViaAnotherSession is false), a member appears as an
outer key of the view iff its membership is join and some member-state event
of that member keeps at least one device after the validity filter and the
local-echo suppression; and every device entry of the view comes from a
stored record that passed the validity filter, so it has string-typed
device_id and session_id, an array-valued feeds field and a numeric
expires_ts strictly greater than now.  In the entered case the local-echo
insertion (claim C4) can add an entry for the local member that is backed by
no record. -/
theorem participants_validity (g lU lD lS : String) (lf : List String)
    (members : RoomMembers) (events : List MemberEvent) (st : GState)
    (eVAS : Bool) (now : Int) (hend : st ≠ GState.ended)
    (hst : st ≠ GState.entered) (hev : eVAS = false) :
    (∀ u, (getA (updateParticipants g lU lD lS lf members events st eVAS now)
        u).isSome = true ↔
      (getMembership members u = some "join" ∧ ∃ e ∈ events, e.stateKey = u ∧
        eventValidDevices g lU lD now false members e ≠ []))
    ∧ (∀ u dm,
      getA (updateParticipants g lU lD lS lf members events st eVAS now) u =
        some dm →
      ∀ d p, (d, p) ∈ dm → ∃ e ∈ events, e.stateKey = u ∧
        ∃ rd ∈ eventDevices g e, validDevice now rd = true ∧
          rd.deviceIdStr = d ∧ now < rd.expiresTs) := by
  rw [updateParticipants_notEntered g lU lD lS lf members events st eVAS now
    hend hst hev]
  constructor
  · intro u
    constructor
    · intro h
      obtain ⟨dm, hdm⟩ := Option.isSome_iff_exists.mp h
      rcases recordView_getA_some g lU lD now false members events [] u dm
        hdm with hl | ⟨e, he, hsk, hadm, _⟩
      · simp [getA] at hl
      · obtain ⟨hvd, hjoin⟩ :=
          (admitEvent_eq_true_iff g lU lD now false members e).mp hadm
        exact ⟨hsk ▸ hjoin, e, he, hsk, hvd⟩
    · rintro ⟨hjoin, e, he, hsk, hvd⟩
      have hadm : admitEvent g lU lD now false members e = true :=
        (admitEvent_eq_true_iff g lU lD now false members e).mpr
          ⟨hvd, by rw [hsk]; exact hjoin⟩
      exact recordView_isSome_of_mem g lU lD now false members events [] u e
        he hsk hadm
  · intro u dm hdm d p hp
    rcases recordView_getA_some g lU lD now false members events [] u dm
      hdm with hl | ⟨e, he, hsk, hadm, hdmeq⟩
    · simp [getA] at hl
    · rw [hdmeq] at hp
      obtain ⟨rd, hrd, hdid, _⟩ := mem_deviceMapOf _ d p hp
      obtain ⟨hrdm, hvalid⟩ :=
        mem_eventValidDevices g lU lD now false members e rd hrd
      exact ⟨e, he, hsk, rd, hrdm, hvalid, hdid,
        validDevice_expires now rd hvalid⟩

/-- Witness for C3: a remote member with one fresh valid device appears in
the not-entered view. -/
theorem participants_validity_witness :
    (getA (updateParticipants "G" "@a:h" "DA" "s0" [] [("@b:h", "join")]
      [eventB] GState.feedInitialized false 0) "@b:h").isSome = true :=
  ((participants_validity "G" "@a:h" "DA" "s0" [] [("@b:h", "join")]
    [eventB] GState.feedInitialized false 0 (by decide) (by decide) rfl).1
    "@b:h").mpr (by decide)

/-! ## C4: the local-echo rule -/

/-- Counterexample to C4: in the entered state, when the local member-state
event itself advertises the local device under a stale session id, the echo
inserts nothing, so the view carries the advertised session id rather than
client.getSessionId(). -/
theorem local_echo_counterexample :
    getA ((getA (updateParticipants "G" "@a:h" "DA" "new" []
        [("@a:h", "join")] [eventLocalOld] GState.entered false 0)
      "@a:h").getD []) "DA" = some ⟨"old", false⟩
    ∧ ("old" : String) ≠ "new" := by
  constructor <;> decide

/-- Claim C4 (amended): when the local device is not considered entered the
view never contains an entry for the local (user, device) pair, even if the
local member-state event advertises it; when it is considered entered (and
the local room member exists, which the source asserts), the view contains
an entry for the local pair, and whenever the record-derived view has no
entry for the local device the inserted entry carries
client.getSessionId() and the screensharing bit of the local feeds.  An
advertised valid record for the local device takes precedence over the echo
values (see the counterexample). -/
theorem participants_local_echo (g lU lD lS : String) (lf : List String)
    (members : RoomMembers) (events : List MemberEvent) (st : GState)
    (eVAS : Bool) (now : Int) (hend : st ≠ GState.ended) :
    ((st ≠ GState.entered ∧ eVAS = false) → ∀ dm,
      getA (updateParticipants g lU lD lS lf members events st eVAS now) lU =
        some dm → getA dm lD = none)
    ∧ ((st = GState.entered ∨ eVAS = true) →
      (getMembership members lU).isSome = true →
      (getA ((getA (updateParticipants g lU lD lS lf members events st eVAS
          now) lU).getD []) lD).isSome = true
      ∧ (getA ((getA (recordView g lU lD now true members events) lU).getD
          []) lD = none →
        getA ((getA (updateParticipants g lU lD lS lf members events st eVAS
            now) lU).getD []) lD =
          some ⟨lS, lf.any (fun p => p == screensharePurpose)⟩)) := by
  constructor
  · rintro ⟨hst, hev⟩ dm hdm
    rw [updateParticipants_notEntered g lU lD lS lf members events st eVAS
      now hend hst hev] at hdm
    rcases recordView_getA_some g lU lD now false members events [] lU dm
      hdm with hl | ⟨e, he, hsk, hadm, hdmeq⟩
    · simp [getA] at hl
    · cases hq : getA dm lD with
      | none => rfl
      | some p =>
        exfalso
        have hpmem : (lD, p) ∈ dm := getA_eq_some_mem dm lD p hq
        rw [hdmeq] at hpmem
        obtain ⟨rd, hrd, hdid, _⟩ := mem_deviceMapOf _ lD p hpmem
        have hjoin :=
          ((admitEvent_eq_true_iff g lU lD now false members e).mp hadm).2
        have hmem : (getMembership members e.stateKey).isSome = true := by
          rw [hjoin]; rfl
        exact mem_eventValidDevices_local g lU lD now members e rd hmem hsk
          hrd hdid
  · intro hent hmem
    rw [updateParticipants_entered g lU lD lS lf members events st eVAS now
      hend hent]
    obtain ⟨ms, hms⟩ := Option.isSome_iff_exists.mp hmem
    unfold applyEcho
    rw [hms]
    dsimp only
    by_cases hq : (getA ((getA (recordView g lU lD now true members events)
        lU).getD []) lD).isSome = true
    · rw [if_pos hq]
      constructor
      · rw [getA_setA_self]
        simpa using hq
      · intro hnone
        rw [hnone] at hq
        simp at hq
    · rw [if_neg hq]
      constructor
      · rw [getA_setA_self]
        simp only [Option.getD_some]
        rw [getA_setA_self]
        rfl
      · intro _
        rw [getA_setA_self]
        simp only [Option.getD_some]
        rw [getA_setA_self]

/-- Witness for C4: after entering with no advertised records, the view
carries the local device with the current session id. -/
theorem participants_local_echo_witness :
    getA ((getA (updateParticipants "G" "@a:h" "DA" "s0" [] [("@a:h", "join")]
      [] GState.entered false 0) "@a:h").getD []) "DA" =
      some ⟨"s0", false⟩ :=
  ((participants_local_echo "G" "@a:h" "DA" "s0" [] [("@a:h", "join")] []
    GState.entered false 0 (by decide)).2 (Or.inl rfl) (by decide)).2
    (by decide)

end GroupCallSpec
